import Mathlib

/-!
Verification development for the video ingestion/retrieval backend
(`src/main.py`, `src/schemas.py`).

The source is a FastAPI service backed by a blob directory (`uploads/`) and a
MongoDB collection `"video"`.  We embed the four operations shallowly:

* `upload_video` — POST /api/videos (validate MIME type, write blob, insert record);
* `list_videos`  — GET /api/videos (optional `q` search filter);
* `get_video`    — GET /api/videos/{id} (parse id, atomic view increment);
* `stream_file`  — GET /stream/{filename} (serve raw blob bytes).

Bytes are modelled as `Nat`, the blob directory as an association list from
filename to byte list, and the record collection as a list of documents in
insertion order.  Python string operations used by the source (`str.split`,
`str.strip`, `x or y` truthiness, `os.path.splitext`) are embedded directly.
-/

set_option autoImplicit false

namespace VideoBackend

/-! ## Python string primitives used by the source -/

/-- Python ASCII whitespace stripped by `str.strip()` (space, tab, LF, CR, VT, FF). -/
def pyWhitespace (c : Char) : Bool :=
  c == ' ' || c == '\t' || c == '\n' || c == '\r' || c == '\x0b' || c == '\x0c'

/-- Python `s.strip()`: remove leading and trailing whitespace. -/
def pyStrip (s : String) : String :=
  String.mk (((s.toList.dropWhile pyWhitespace).reverse.dropWhile pyWhitespace).reverse)

/-- Helper for `pySplitComma`: accumulate the current piece (reversed) while scanning. -/
def splitCommaChars : List Char → List Char → List String
  | [], cur => [String.mk cur.reverse]
  | c :: cs, cur =>
    if c = ',' then String.mk cur.reverse :: splitCommaChars cs []
    else splitCommaChars cs (c :: cur)

/-- Python `s.split(",")`: split at every comma, keeping empty pieces
(so `"".split(",") = [""]` and `"a,,b".split(",") = ["a", "", "b"]`). -/
def pySplitComma (s : String) : List String :=
  splitCommaChars s.toList []

/-- Python `x or d` on an optional string: `None` and `""` are falsy, so they
yield the default `d`; any other string yields itself. -/
def pyOrStr (x : Option String) (d : String) : String :=
  match x with
  | none => d
  | some s => if s = "" then d else s

/-- Boolean prefix test on character lists (`needle` is a prefix of `hay`),
embedding Python `str.startswith`. -/
def leadsWith : List Char → List Char → Bool
  | [], _ => true
  | _ :: _, [] => false
  | a :: as, b :: bs => a == b && leadsWith as bs

/-- Unanchored occurrence test: `needle` occurs as a contiguous run inside `hay`. -/
def hasSub (needle : List Char) : List Char → Bool
  | [] => leadsWith needle []
  | c :: cs => leadsWith needle (c :: cs) || hasSub needle cs

/-- Index of the last occurrence of `c` in `l`, scanning with an accumulator. -/
def lastIdxAux (c : Char) : List Char → Nat → Option Nat → Option Nat
  | [], _, acc => acc
  | x :: xs, i, acc => lastIdxAux c xs (i + 1) (if x = c then some i else acc)

/-- Index of the last occurrence of `c` in `l`, if any. -/
def lastIdxOf (c : Char) (l : List Char) : Option Nat :=
  lastIdxAux c l 0 none

/-- Characters strictly after the last `'/'` (the POSIX basename part). -/
def afterLastSep (l : List Char) : List Char :=
  l.foldl (fun acc ch => if ch = '/' then [] else acc ++ [ch]) []

/-- Python `os.path.splitext(p)[1]` (POSIX): the extension starting at the last
dot of the basename, empty when the basename has no dot or consists only of
leading dots before that dot (so `".bashrc"` and `"..."` have no extension). -/
def splitextExt (p : String) : String :=
  let b := afterLastSep p.toList
  match lastIdxOf '.' b with
  | none => ""
  | some d => if (b.take d).all (fun ch => ch == '.') then "" else String.mk (b.drop d)

/-! ## Data model -/

/-- Errors surfaced by the endpoints (HTTP 400/404 in the source). -/
inductive ApiError
  | invalidContentType
  | invalidIdentifier
  | notFound
  deriving DecidableEq

/-- Result of an endpoint: a value or an `ApiError` (a raised `HTTPException`). -/
inductive Result (α : Type)
  | ok (a : α)
  | error (e : ApiError)
  deriving DecidableEq

/-- State of the `updated_at` field of a stored document: absent at insertion
(the schema has no such field), or BSON null after
`find_one_and_update` runs with the source text `"$set": .. updated_at .. None`. -/
inductive UpdatedAt
  | absent
  | null
  deriving DecidableEq

/-- The pydantic `Video` model of `src/schemas.py`: the fields supplied at
insertion time (`views` defaults to 0, `tags` to the empty list). -/
structure Video where
  title : String
  description : Option String
  filename : String
  content_type : String
  size : Nat
  views : Nat
  tags : List String
  deriving DecidableEq

/-- A document stored in the `"video"` collection: the `Video` fields plus the
`_id` assigned at insertion, the `created_at` timestamp, and the `updated_at`
state touched only by the view increment. -/
structure VideoDoc where
  id : String
  title : String
  description : Option String
  filename : String
  content_type : String
  size : Nat
  views : Nat
  tags : List String
  created_at : Nat
  updated_at : UpdatedAt
  deriving DecidableEq

/-- Whole-system state: the `uploads/` blob directory (filename to bytes),
the `"video"` collection in insertion order, and the clock used for
`created_at` timestamps. -/
structure AppState where
  blobs : List (String × List Nat)
  videos : List VideoDoc
  now : Nat
  deriving DecidableEq

/-- Look up a blob by filename in the uploads directory. -/
def lookupBlob (k : String) : List (String × List Nat) → Option (List Nat)
  | [] => none
  | (k', v) :: rest => if k' = k then some v else lookupBlob k rest

/-- Write a blob: `open(destination, "wb")` truncates, so an existing entry
under the same name is replaced, otherwise the file is created. -/
def writeBlob (k : String) (v : List Nat) : List (String × List Nat) → List (String × List Nat)
  | [] => [(k, v)]
  | (k', v') :: rest => if k' = k then (k, v) :: rest else (k', v') :: writeBlob k v rest

/-- First document of the collection with the given `_id`, if any. -/
def findDocById (v : String) : List VideoDoc → Option VideoDoc
  | [] => none
  | d :: ds => if d.id = v then some d else findDocById v ds

/-! ## Video Ingestion Service (`upload_video`, src/main.py lines 57-88) -/

/-- One upload request: the raw bytes read from the multipart file, the declared
MIME type (`file.content_type`), the original client filename (`file.filename`),
the size the client declared for the part (`UploadFile.size`, never read by the
source), and the optional form fields. -/
structure UploadRequest where
  content : List Nat
  contentType : Option String
  origFilename : Option String
  declaredSize : Option Nat
  title : Option String
  description : Option String
  tags : Option String
  deriving DecidableEq

/-- Line 64: `file.content_type is None or not file.content_type.startswith("video/")`
is the rejection test; this is its positive form. -/
def startsWithVideo : Option String → Bool
  | none => false
  | some ct => leadsWith "video/".toList ct.toList

/-- The declared MIME type as stored in the record (`content_type=file.content_type`);
only evaluated on the success path, where the type is present. -/
def ctValue : Option String → String
  | none => ""
  | some ct => ct

/-- Line 76: `[t.strip() for t in (tags or "").split(",") if t.strip()]`. -/
def parseTags (tags : Option String) : List String :=
  ((pySplitComma (pyOrStr tags "")).map pyStrip).filter (fun t => t != "")

/-- Line 68: `safe_name = f"..ObjectId..{os.path.splitext(file.filename or '')[1]}"`
with `blobOid` the freshly generated ObjectId string. -/
def safeNameOf (req : UploadRequest) (blobOid : String) : String :=
  blobOid ++ splitextExt (pyOrStr req.origFilename "")

/-- Modelled from the spec: `database.create_document` (file `database.py`, not
under `src/`) inserts the record into the `"video"` collection, assigning a
unique `_id` and setting `created_at` at insertion (spec sections 3 and 4.2,
Metadata Store `Insert`), and returns the assigned id.  `freshId` is the id the
store assigns and `now` the insertion timestamp. -/
def create_document (v : Video) (freshId : String) (now : Nat) (vids : List VideoDoc) :
    String × List VideoDoc :=
  let doc : VideoDoc :=
    { id := freshId, title := v.title, description := v.description,
      filename := v.filename, content_type := v.content_type, size := v.size,
      views := v.views, tags := v.tags, created_at := now, updated_at := .absent }
  (freshId, vids ++ [doc])

/-- POST /api/videos (src/main.py lines 57-88).  `blobOid` and `docOid` are the
two freshly generated ObjectId strings (the one embedded in `safe_name` and the
one the insert assigns). -/
def upload_video (req : UploadRequest) (blobOid docOid : String) (s : AppState) :
    Result String × AppState :=
  if startsWithVideo req.contentType = false then (.error .invalidContentType, s)
  else
    let safeName := safeNameOf req blobOid
    let blobs' := writeBlob safeName req.content s.blobs
    let vdoc : Video :=
      { title := pyOrStr req.title (pyOrStr req.origFilename "Untitled"),
        description := req.description,
        filename := safeName,
        content_type := ctValue req.contentType,
        size := req.content.length,
        views := 0,
        tags := parseTags req.tags }
    let ins := create_document vdoc docOid s.now s.videos
    (.ok ins.1, { s with blobs := blobs', videos := ins.2 })

/-! ## Search Filter and Query Service (`list_videos`, src/main.py lines 90-116) -/

/-- Search token: a literal character or the `.` wildcard. -/
inductive RTok
  | lit (c : Char)
  | dot
  deriving DecidableEq

/-- Token of one pattern character: `.` is the any-character wildcard,
everything else a literal. -/
def rtokOf (c : Char) : RTok :=
  if c = '.' then .dot else .lit c

/-- Case-insensitive match of one token against one subject character. -/
def tokMatches (t : RTok) (c : Char) : Bool :=
  match t with
  | .lit l => l.toLower == c.toLower
  | .dot => true

/-- Anchored match of a token sequence at the start of the subject. -/
def matchHere : List RTok → List Char → Bool
  | [], _ => true
  | _ :: _, [] => false
  | t :: ts, c :: cs => tokMatches t c && matchHere ts cs

/-- Unanchored search: the token sequence matches at some position of the subject. -/
def reSearch (ts : List RTok) : List Char → Bool
  | [] => matchHere ts []
  | c :: cs => matchHere ts (c :: cs) || reSearch ts (cs)

/-- Modelled from documented MongoDB/PCRE semantics of the line-96 filter
element `"$regex": q` with case-insensitive option `"i"`: the pattern is an
unanchored case-insensitive regular-expression search over the field value.
The model covers the pattern fragment built from literal characters and the
`.` any-character metacharacter; patterns using other PCRE metacharacters are
outside this fragment. -/
def regexSearchI (pat : String) (s : String) : Bool :=
  reSearch (pat.toList.map rtokOf) s.toList

/-- The filter dictionary built by `list_videos`: empty, or the line-97
`$or` of the regex applied to `title`, `description` and `tags`. -/
inductive QueryFilter
  | all
  | orRegexTDT (pattern : String)
  deriving DecidableEq

/-- Whether one stored document matches the filter: Mongo matches a regex
against a string field directly (a missing/null `description` matches nothing)
and against an array field elementwise (some tag must match). -/
def docMatches (flt : QueryFilter) (d : VideoDoc) : Bool :=
  match flt with
  | .all => true
  | .orRegexTDT q =>
    regexSearchI q d.title ||
    (match d.description with
     | none => false
     | some ds => regexSearchI q ds) ||
    d.tags.any (fun t => regexSearchI q t)

/-- Lines 93-97: `filter_dict = {}` unless `q` is truthy (present and non-empty),
in which case the `$or` regex filter is built. -/
def queryFilterOf (q : Option String) : QueryFilter :=
  match q with
  | none => .all
  | some qs => if qs = "" then .all else .orRegexTDT qs

/-- Modelled from the spec: `database.get_documents` (file `database.py`, not
under `src/`) returns the documents of the collection matching the filter,
in stable insertion order when the filter does not narrow further
(spec section 4.2, Metadata Store `Find`). -/
def get_documents (flt : QueryFilter) (vids : List VideoDoc) : List VideoDoc :=
  vids.filter (fun d => docMatches flt d)

/-- GET /api/videos (src/main.py lines 90-116): the records selected by the
optional query.  The endpoint then maps each selected record 1:1 to a response
projection; record selection is what is modelled here. -/
def list_videos (q : Option String) (s : AppState) : List VideoDoc :=
  get_documents (queryFilterOf q) s.videos

/-! ## View Service (`get_video`, src/main.py lines 118-144) -/

/-- Hexadecimal digit, either case. -/
def isHexChar (c : Char) : Bool :=
  c.isDigit || (decide ('a' ≤ c) && decide (c ≤ 'f')) || (decide ('A' ≤ c) && decide (c ≤ 'F'))

/-- Line 122: `ObjectId(video_id)` succeeds on a string exactly when it is a
24-character hexadecimal string (bson `ObjectId` string form); anything else
raises `InvalidId`. -/
def isValidObjectId (v : String) : Bool :=
  v.toList.length == 24 && v.toList.all isHexChar

/-- The line-128 update applied to the matched document: `"$inc"` of `views`
by 1 and `"$set"` of `updated_at` to BSON null. -/
def bumpViews (d : VideoDoc) : VideoDoc :=
  { d with views := d.views + 1, updated_at := .null }

/-- The same document with `views` replaced by `k` and `updated_at` null;
`bumpViews d = setViews d (d.views + 1)`. -/
def setViews (d : VideoDoc) (k : Nat) : VideoDoc :=
  { d with views := k, updated_at := .null }

/-- Modelled from documented pymongo/MongoDB semantics of the line-126 call
`find_one_and_update` with the line-128 update and `ReturnDocument.AFTER`: in
one atomic step, the first document matching the id filter is updated and the
post-update document returned; with no match, nothing changes and `None` is
returned. -/
def find_one_and_update : List VideoDoc → String → Option VideoDoc × List VideoDoc
  | [], _ => (none, [])
  | d :: ds, i =>
    if d.id = i then (some (bumpViews d), bumpViews d :: ds)
    else ((find_one_and_update ds i).1, d :: (find_one_and_update ds i).2)

/-- GET /api/videos/{video_id} (src/main.py lines 118-144): parse the id
(400 on failure), atomically increment-and-fetch (404 with no match), return
the post-increment document.  The endpoint maps the document 1:1 to a response
projection; the document itself is returned here. -/
def get_video (videoId : String) (s : AppState) : Result VideoDoc × AppState :=
  if isValidObjectId videoId then
    match (find_one_and_update s.videos videoId).1 with
    | none => (.error .notFound, { s with videos := (find_one_and_update s.videos videoId).2 })
    | some doc => (.ok doc, { s with videos := (find_one_and_update s.videos videoId).2 })
  else (.error .invalidIdentifier, s)

/-- N concurrent View Service calls on the same id.  Each call performs exactly
one atomic `find_one_and_update` step and the calls share no other mutable
state, so every concurrent schedule of N identical calls is observationally a
sequential composition of N atomic steps; this function is that composition,
returning each call's response together with the final state. -/
def runViewCalls : Nat → String → AppState → List (Result VideoDoc) × AppState
  | 0, _, s => ([], s)
  | n + 1, v, s =>
    ((get_video v s).1 :: (runViewCalls n v (get_video v s).2).1,
      (runViewCalls n v (get_video v s).2).2)

/-! ## Stream Service (`stream_file`, src/main.py lines 146-152) -/

/-- GET /stream/{filename} (src/main.py lines 146-152): 404 when no file of
that name exists under `uploads/`, otherwise `FileResponse` serves the stored
bytes unchanged. -/
def stream_file (filename : String) (s : AppState) : Result (List Nat) :=
  match lookupBlob filename s.blobs with
  | none => .error .notFound
  | some bytes => .ok bytes

/-! ## Sample states used to instantiate the theorems -/

/-- A stored document used as concrete test data. -/
def sampleDoc : VideoDoc :=
  { id := "507f1f77bcf86cd799439011", title := "cat", description := none,
    filename := "k.mp4", content_type := "video/mp4", size := 3, views := 5,
    tags := [], created_at := 0, updated_at := .absent }

/-- A concrete system state holding one blob and one record. -/
def sampleState : AppState :=
  { blobs := [("k.mp4", [1, 2, 3])], videos := [sampleDoc], now := 7 }

/-- A well-formed concrete upload request (video MIME type, no title). -/
def sampleReq : UploadRequest :=
  { content := [10, 20], contentType := some "video/mp4",
    origFilename := some "cat.mp4", declaredSize := some 999,
    title := none, description := none, tags := some "a, b ,,c" }

/-- A concrete upload request with a non-video MIME type. -/
def badReq : UploadRequest :=
  { content := [1], contentType := some "image/png",
    origFilename := some "x.png", declaredSize := none,
    title := none, description := none, tags := none }

/-! ## Helper lemmas -/

theorem map_congr_fun {α β : Type} (f g : α → β) (l : List α) (h : ∀ a, f a = g a) :
    l.map f = l.map g := by
  induction l with
  | nil => rfl
  | cons x xs ih => simp [h x, ih]

theorem filter_congr_fun {α : Type} (p q : α → Bool) (l : List α) (h : ∀ a, p a = q a) :
    l.filter p = l.filter q := by
  induction l with
  | nil => rfl
  | cons x xs ih => simp [List.filter, h x, ih]

theorem leadsWith_iff (n : List Char) : ∀ h : List Char,
    leadsWith n h = true ↔ ∃ r, h = n ++ r := by
  induction n with
  | nil => intro h; simp [leadsWith]
  | cons a as ih =>
    intro h
    cases h with
    | nil =>
      simp [leadsWith]
    | cons b bs =>
      simp only [leadsWith, Bool.and_eq_true, beq_iff_eq, ih bs, List.cons_append,
        List.cons.injEq]
      constructor
      · rintro ⟨rfl, r, rfl⟩; exact ⟨r, rfl, rfl⟩
      · rintro ⟨r, rfl, rfl⟩; exact ⟨rfl, r, rfl⟩

theorem hasSub_iff (n : List Char) : ∀ h : List Char,
    hasSub n h = true ↔ ∃ l r, h = l ++ n ++ r := by
  intro h
  induction h with
  | nil =>
    simp only [hasSub, leadsWith_iff]
    constructor
    · rintro ⟨r, hr⟩
      exact ⟨[], r, by simpa using hr⟩
    · rintro ⟨l, r, hr⟩
      rcases List.append_eq_nil.mp hr.symm with ⟨h1, h2⟩
      rcases List.append_eq_nil.mp h1 with ⟨rfl, rfl⟩
      exact ⟨r, by simpa using h2.symm⟩
  | cons c cs ih =>
    simp only [hasSub, Bool.or_eq_true, leadsWith_iff, ih]
    constructor
    · rintro (⟨r, hr⟩ | ⟨l, r, hr⟩)
      · exact ⟨[], r, by simpa using hr⟩
      · exact ⟨c :: l, r, by simp [hr]⟩
    · rintro ⟨l, r, hr⟩
      cases l with
      | nil => exact Or.inl ⟨r, by simpa using hr⟩
      | cons x xs =>
        right
        refine ⟨xs, r, ?_⟩
        have := hr
        simp only [List.cons_append, List.cons.injEq] at this
        exact this.2

theorem matchHere_lit (q : List Char) : ∀ s : List Char,
    matchHere (q.map RTok.lit) s = leadsWith (q.map Char.toLower) (s.map Char.toLower) := by
  induction q with
  | nil => intro s; simp [matchHere, leadsWith]
  | cons a as ih =>
    intro s
    cases s with
    | nil => simp [matchHere, leadsWith]
    | cons b bs => simp [matchHere, leadsWith, tokMatches, ih bs]

theorem reSearch_lit (q : List Char) : ∀ s : List Char,
    reSearch (q.map RTok.lit) s = hasSub (q.map Char.toLower) (s.map Char.toLower) := by
  intro s
  induction s with
  | nil => simp [reSearch, hasSub, matchHere_lit]
  | cons c cs ih => simp [reSearch, hasSub, matchHere_lit, ih]

theorem rtokOf_eq_lit (q : List Char) (h : '.' ∉ q) : q.map rtokOf = q.map RTok.lit := by
  induction q with
  | nil => rfl
  | cons a as ih =>
    simp only [List.mem_cons, not_or] at h
    have ha : ¬a = '.' := fun hc => h.1 hc.symm
    simp [rtokOf, ha, ih h.2]

theorem regexSearchI_eq_substr (q t : String) (h : '.' ∉ q.toList) :
    regexSearchI q t = hasSub (q.toList.map Char.toLower) (t.toList.map Char.toLower) := by
  rw [regexSearchI, rtokOf_eq_lit _ h, reSearch_lit]

theorem lookupBlob_writeBlob (k : String) (v : List Nat) (l : List (String × List Nat)) :
    lookupBlob k (writeBlob k v l) = some v := by
  induction l with
  | nil => simp [writeBlob, lookupBlob]
  | cons p ps ih =>
    obtain ⟨k', v'⟩ := p
    by_cases h : k' = k
    · simp [writeBlob, lookupBlob, h]
    · simp [writeBlob, lookupBlob, h, ih]

theorem find_one_and_update_none (v : String) (l : List VideoDoc)
    (h : findDocById v l = none) : find_one_and_update l v = (none, l) := by
  induction l with
  | nil => simp [find_one_and_update]
  | cons d ds ih =>
    by_cases hd : d.id = v
    · simp [findDocById, hd] at h
    · simp only [findDocById, hd, if_false, if_neg hd] at h ⊢
      simp [find_one_and_update, hd, ih h]

theorem find_one_and_update_found (v : String) (d : VideoDoc) (l : List VideoDoc)
    (h : findDocById v l = some d) :
    (find_one_and_update l v).1 = some (bumpViews d) ∧
    findDocById v (find_one_and_update l v).2 = some (bumpViews d) := by
  induction l with
  | nil => simp [findDocById] at h
  | cons e es ih =>
    by_cases he : e.id = v
    · simp only [findDocById, he, if_true, Option.some.injEq] at h
      subst h
      constructor
      · simp [find_one_and_update, he]
      · have hid : (bumpViews e).id = v := he
        simp [find_one_and_update, he, findDocById, hid]
    · simp only [findDocById, he, if_false, if_neg he] at h
      obtain ⟨ih1, ih2⟩ := ih h
      constructor
      · simp [find_one_and_update, he, ih1]
      · simp [find_one_and_update, he, findDocById, ih2]

theorem get_video_step (v : String) (s : AppState) (d : VideoDoc)
    (hv : isValidObjectId v = true) (hd : findDocById v s.videos = some d) :
    (get_video v s).1 = .ok (bumpViews d) ∧
    findDocById v (get_video v s).2.videos = some (bumpViews d) ∧
    (get_video v s).2.blobs = s.blobs ∧
    (get_video v s).2.now = s.now := by
  obtain ⟨h1, h2⟩ := find_one_and_update_found v d s.videos hd
  simp [get_video, hv, h1, h2]

/-! ## Claims about the Video Ingestion Service -/

/-- Claim C1: for every accepted upload, the `size` field of the inserted record
equals the exact number of bytes of the uploaded content written to the blob
store, and the result is unchanged under any size the client declares. -/
theorem upload_size_exact (req : UploadRequest) (b o : String) (s : AppState)
    (hct : startsWithVideo req.contentType = true) :
    ∃ doc : VideoDoc,
      (upload_video req b o s).2.videos = s.videos ++ [doc] ∧
      doc.size = req.content.length ∧
      lookupBlob doc.filename (upload_video req b o s).2.blobs = some req.content ∧
      (∀ n : Option Nat,
        upload_video { req with declaredSize := n } b o s = upload_video req b o s) := by
  refine ⟨{ id := o, title := pyOrStr req.title (pyOrStr req.origFilename "Untitled"),
            description := req.description, filename := safeNameOf req b,
            content_type := ctValue req.contentType, size := req.content.length,
            views := 0, tags := parseTags req.tags, created_at := s.now,
            updated_at := .absent }, ?_, rfl, ?_, ?_⟩
  · simp [upload_video, hct, create_document]
  · simp [upload_video, hct, create_document, lookupBlob_writeBlob]
  · intro n; rfl

/-- Claim C1 witness: the theorem instantiated at a concrete accepted upload. -/
theorem upload_size_exact_witness :
    ∃ doc : VideoDoc,
      (upload_video sampleReq "b" "o" sampleState).2.videos = sampleState.videos ++ [doc] ∧
      doc.size = sampleReq.content.length ∧
      lookupBlob doc.filename (upload_video sampleReq "b" "o" sampleState).2.blobs
        = some sampleReq.content ∧
      (∀ n : Option Nat,
        upload_video { sampleReq with declaredSize := n } "b" "o" sampleState
          = upload_video sampleReq "b" "o" sampleState) :=
  upload_size_exact sampleReq "b" "o" sampleState (by decide)

/-- Claim C2: an upload whose declared MIME type does not begin with `video/`
(or has none) fails with `InvalidContentType` and leaves the whole state
untouched (no blob written, no record inserted); an upload whose MIME type does
begin with `video/` is never rejected that way — it succeeds with the inserted
id. -/
theorem upload_content_type_gate (req : UploadRequest) (b o : String) (s : AppState) :
    (startsWithVideo req.contentType = false →
      upload_video req b o s = (.error .invalidContentType, s)) ∧
    (startsWithVideo req.contentType = true →
      (upload_video req b o s).1 = .ok o) := by
  constructor
  · intro h; simp [upload_video, h]
  · intro h; simp [upload_video, h, create_document]

/-- Claim C2 witness: a concrete `image/png` upload is rejected with no state
change, and a concrete `video/mp4` upload succeeds. -/
theorem upload_content_type_gate_witness :
    upload_video badReq "b" "o" sampleState = (.error .invalidContentType, sampleState) ∧
    (upload_video sampleReq "b" "o" sampleState).1 = .ok "o" :=
  ⟨(upload_content_type_gate badReq "b" "o" sampleState).1 (by decide),
   (upload_content_type_gate sampleReq "b" "o" sampleState).2 (by decide)⟩

/-- Claim C7: the ingestion tag parser splits on commas, trims whitespace,
drops empty pieces and preserves duplicates and order: `"a, b ,,c"` parses to
`["a", "b", "c"]`, and a duplicated tag stays duplicated in order. -/
theorem tags_parse_example :
    parseTags (some "a, b ,,c") = ["a", "b", "c"] ∧
    parseTags (some " x ,x, ,x") = ["x", "x", "x"] ∧
    parseTags none = [] := by
  decide

/-- Claim C10: when the caller supplies no title (or an empty one), the title
defaults to the original upload filename, and to `"Untitled"` when that
filename is also absent or empty. -/
theorem upload_title_default (req : UploadRequest) (b o : String) (s : AppState)
    (hct : startsWithVideo req.contentType = true)
    (ht : req.title = none ∨ req.title = some "") :
    ∃ doc : VideoDoc,
      (upload_video req b o s).2.videos = s.videos ++ [doc] ∧
      doc.title = (match req.origFilename with
        | none => "Untitled"
        | some f => if f = "" then "Untitled" else f) := by
  have hx : pyOrStr req.title (pyOrStr req.origFilename "Untitled")
      = (match req.origFilename with
         | none => "Untitled"
         | some f => if f = "" then "Untitled" else f) := by
    rcases ht with h | h <;> rw [h] <;> cases req.origFilename <;> simp [pyOrStr]
  refine ⟨{ id := o, title := pyOrStr req.title (pyOrStr req.origFilename "Untitled"),
            description := req.description, filename := safeNameOf req b,
            content_type := ctValue req.contentType, size := req.content.length,
            views := 0, tags := parseTags req.tags, created_at := s.now,
            updated_at := .absent }, ?_, hx⟩
  simp [upload_video, hct, create_document]

/-- Claim C10 witness: a concrete upload with no title gets the original
filename `"cat.mp4"` as its title. -/
theorem upload_title_default_witness :
    ∃ doc : VideoDoc,
      (upload_video sampleReq "b" "o" sampleState).2.videos = sampleState.videos ++ [doc] ∧
      doc.title = (match sampleReq.origFilename with
        | none => "Untitled"
        | some f => if f = "" then "Untitled" else f) :=
  upload_title_default sampleReq "b" "o" sampleState (by decide) (Or.inl rfl)

/-! ## Claims about the Stream Service -/

/-- Claim C8: streaming a filename under which no blob is stored fails with
`NotFound`; streaming the key written by a prior upload returns byte-for-byte
the uploaded content. -/
theorem stream_roundtrip (s : AppState) :
    (∀ k, lookupBlob k s.blobs = none → stream_file k s = .error .notFound) ∧
    (∀ (req : UploadRequest) (b o : String), startsWithVideo req.contentType = true →
      stream_file (safeNameOf req b) (upload_video req b o s).2 = .ok req.content) := by
  constructor
  · intro k h; simp [stream_file, h]
  · intro req b o hct
    simp [upload_video, hct, create_document, stream_file, lookupBlob_writeBlob]

/-- Claim C8 witness: a concrete missing filename yields `NotFound`, and the
key written by a concrete upload streams back exactly the uploaded bytes. -/
theorem stream_roundtrip_witness :
    stream_file "nope" sampleState = .error .notFound ∧
    stream_file (safeNameOf sampleReq "b") (upload_video sampleReq "b" "o" sampleState).2
      = .ok sampleReq.content :=
  ⟨(stream_roundtrip sampleState).1 "nope" (by decide),
   (stream_roundtrip sampleState).2 sampleReq "b" "o" (by decide)⟩

/-! ## Claims about the View Service -/

/-- Claim C3: a string that does not parse as an identifier fails with
`InvalidIdentifier` (not `NotFound`) and the state is untouched; a string that
parses but matches no stored record fails with `NotFound`, also with the state
untouched. -/
theorem get_video_identifier_errors (v : String) (s : AppState) :
    (isValidObjectId v = false → get_video v s = (.error .invalidIdentifier, s)) ∧
    (isValidObjectId v = true → findDocById v s.videos = none →
      get_video v s = (.error .notFound, s)) := by
  constructor
  · intro h; simp [get_video, h]
  · intro hv hn
    simp [get_video, hv, find_one_and_update_none v s.videos hn]

/-- Claim C3 witness: a concrete malformed id yields `InvalidIdentifier` and a
concrete well-formed but absent id yields `NotFound`, both leaving the state
unchanged. -/
theorem get_video_identifier_errors_witness :
    get_video "not-a-valid-object-id" sampleState = (.error .invalidIdentifier, sampleState) ∧
    get_video "507f1f77bcf86cd799439012" sampleState = (.error .notFound, sampleState) :=
  ⟨(get_video_identifier_errors "not-a-valid-object-id" sampleState).1 (by decide),
   (get_video_identifier_errors "507f1f77bcf86cd799439012" sampleState).2
     (by decide) (by decide)⟩

/-- Claim C4: a successful View Service call on an existing record returns the
post-increment record — its `views` equals the prior stored value plus one —
and stores that record back under the same id. -/
theorem get_video_increments_views (v : String) (s : AppState) (d : VideoDoc)
    (hv : isValidObjectId v = true) (hd : findDocById v s.videos = some d) :
    (get_video v s).1 = .ok (bumpViews d) ∧
    (bumpViews d).views = d.views + 1 ∧
    findDocById v (get_video v s).2.videos = some (bumpViews d) := by
  obtain ⟨h1, h2, _, _⟩ := get_video_step v s d hv hd
  exact ⟨h1, rfl, h2⟩

/-- Claim C4 witness: the theorem instantiated at the sample record with five
prior views, returning six. -/
theorem get_video_increments_views_witness :
    (get_video "507f1f77bcf86cd799439011" sampleState).1 = .ok (bumpViews sampleDoc) ∧
    (bumpViews sampleDoc).views = sampleDoc.views + 1 ∧
    findDocById "507f1f77bcf86cd799439011"
      (get_video "507f1f77bcf86cd799439011" sampleState).2.videos
      = some (bumpViews sampleDoc) :=
  get_video_increments_views "507f1f77bcf86cd799439011" sampleState sampleDoc
    (by decide) (by decide)

/-- Claim C9: a successful view increment changes only `views` and `updated_at`:
all other fields of the stored record keep their prior values, and `updated_at`
is set to the empty value (BSON null, from the source text
`"$set": .. updated_at .. None`). -/
theorem view_increment_frame (v : String) (s : AppState) (d : VideoDoc)
    (hv : isValidObjectId v = true) (hd : findDocById v s.videos = some d) :
    ∃ d' : VideoDoc,
      (get_video v s).1 = .ok d' ∧
      findDocById v (get_video v s).2.videos = some d' ∧
      d'.id = d.id ∧ d'.title = d.title ∧ d'.description = d.description ∧
      d'.filename = d.filename ∧ d'.content_type = d.content_type ∧
      d'.size = d.size ∧ d'.tags = d.tags ∧ d'.created_at = d.created_at ∧
      d'.views = d.views + 1 ∧ d'.updated_at = .null := by
  obtain ⟨h1, h2, _, _⟩ := get_video_step v s d hv hd
  exact ⟨bumpViews d, h1, h2, rfl, rfl, rfl, rfl, rfl, rfl, rfl, rfl, rfl, rfl⟩

/-- Claim C9 witness: the theorem instantiated at the sample record. -/
theorem view_increment_frame_witness :
    ∃ d' : VideoDoc,
      (get_video "507f1f77bcf86cd799439011" sampleState).1 = .ok d' ∧
      findDocById "507f1f77bcf86cd799439011"
        (get_video "507f1f77bcf86cd799439011" sampleState).2.videos = some d' ∧
      d'.id = sampleDoc.id ∧ d'.title = sampleDoc.title ∧
      d'.description = sampleDoc.description ∧
      d'.filename = sampleDoc.filename ∧ d'.content_type = sampleDoc.content_type ∧
      d'.size = sampleDoc.size ∧ d'.tags = sampleDoc.tags ∧
      d'.created_at = sampleDoc.created_at ∧
      d'.views = sampleDoc.views + 1 ∧ d'.updated_at = .null :=
  view_increment_frame "507f1f77bcf86cd799439011" sampleState sampleDoc
    (by decide) (by decide)

/-- Composing two view updates: only the last `views` value and the null
`updated_at` remain. -/
theorem setViews_setViews (d : VideoDoc) (m k : Nat) :
    setViews (setViews d m) k = setViews d k := rfl

/-- Core induction for claim C5: running `n` atomic view calls on a store whose
record for `v` is `d` returns the responses with views `d.views + 1` up to
`d.views + n` in order, and leaves the record with `views = d.views + n`. -/
theorem runViewCalls_ok (v : String) (hv : isValidObjectId v = true) :
    ∀ (n : Nat) (s : AppState) (d : VideoDoc), findDocById v s.videos = some d →
      (runViewCalls n v s).1
        = (List.range n).map (fun i => .ok (setViews d (d.views + i + 1))) ∧
      ∃ d' : VideoDoc, findDocById v (runViewCalls n v s).2.videos = some d' ∧
        d'.views = d.views + n := by
  intro n
  induction n with
  | zero =>
    intro s d hd
    exact ⟨by simp [runViewCalls], d, by simpa [runViewCalls] using hd, rfl⟩
  | succ n ih =>
    intro s d hd
    obtain ⟨h1, h2, _, _⟩ := get_video_step v s d hv hd
    have hb : bumpViews d = setViews d (d.views + 1) := rfl
    obtain ⟨ihres, d', ihd', ihviews⟩ := ih (get_video v s).2 (bumpViews d) h2
    constructor
    · show (get_video v s).1 :: (runViewCalls n v (get_video v s).2).1 = _
      rw [h1, ihres, List.range_succ_eq_map, List.map_cons, List.map_map]
      refine congrArg₂ _ (by simp [hb]) ?_
      refine map_congr_fun _ _ _ (fun i => ?_)
      simp only [Function.comp, hb, setViews_setViews]
      have : d.views + 1 + i + 1 = d.views + (i + 1) + 1 := by omega
      rw [show (setViews d (d.views + 1)).views = d.views + 1 from rfl, this]
    · refine ⟨d', ihd', ?_⟩
      rw [ihviews, hb]
      show d.views + 1 + n = d.views + (n + 1)
      omega

/-- Claim C5: for every N, N concurrent View Service calls on the same existing
id — each an atomic `find_one_and_update` step, so any concurrent schedule is a
sequential composition of the N steps — leave the record's counter at the prior
value plus N, return the post-increment values prior+1, ..., prior+N in
schedule order (so no two calls observe the same pre-increment value), and no
two responses coincide. -/
theorem concurrent_view_calls (n : Nat) (v : String) (s : AppState) (d : VideoDoc)
    (_hn : 1 ≤ n) (hv : isValidObjectId v = true) (hd : findDocById v s.videos = some d) :
    (runViewCalls n v s).1
      = (List.range n).map (fun i => .ok (setViews d (d.views + i + 1))) ∧
    (runViewCalls n v s).1.Nodup ∧
    (∃ d' : VideoDoc, findDocById v (runViewCalls n v s).2.videos = some d' ∧
      d'.views = d.views + n) := by
  obtain ⟨hres, hfin⟩ := runViewCalls_ok v hv n s d hd
  refine ⟨hres, ?_, hfin⟩
  rw [hres]
  refine List.Nodup.map ?_ (List.nodup_range n)
  intro a b hab
  simp only [Result.ok.injEq] at hab
  have : (setViews d (d.views + a + 1)).views = (setViews d (d.views + b + 1)).views := by
    rw [hab]
  have hk : d.views + a + 1 = d.views + b + 1 := by simpa [setViews] using this
  omega

/-- Claim C5 witness: three calls on the sample record (five prior views)
return views six, seven, eight, pairwise distinct, and leave the counter at
eight. -/
theorem concurrent_view_calls_witness :
    (runViewCalls 3 "507f1f77bcf86cd799439011" sampleState).1
      = (List.range 3).map
          (fun i => .ok (setViews sampleDoc (sampleDoc.views + i + 1))) ∧
    (runViewCalls 3 "507f1f77bcf86cd799439011" sampleState).1.Nodup ∧
    (∃ d' : VideoDoc,
      findDocById "507f1f77bcf86cd799439011"
        (runViewCalls 3 "507f1f77bcf86cd799439011" sampleState).2.videos = some d' ∧
      d'.views = sampleDoc.views + 3) :=
  concurrent_view_calls 3 "507f1f77bcf86cd799439011" sampleState sampleDoc
    (by decide) (by decide) (by decide)

/-! ## Claims about the Query Service -/

/-- Spec-side predicate, written from the spec's words for comparison with the
code's filter: `q` occurs as a case-insensitive plain substring of `t`. -/
def substrCI (q t : String) : Bool :=
  hasSub (q.toList.map Char.toLower) (t.toList.map Char.toLower)

/-- PCRE metacharacters: a query avoiding all of them is a plain literal
pattern. -/
def regexMeta : List Char :=
  ['.', '^', '$', '*', '+', '?', '(', ')', '[', ']', '\x7b', '\x7d', '|', '\\']

/-- A record whose only text is the title `"cat"`. -/
def regexDoc : VideoDoc :=
  { id := "aaaaaaaaaaaaaaaaaaaaaaaa", title := "cat", description := none,
    filename := "f.mp4", content_type := "video/mp4", size := 0, views := 0,
    tags := [], created_at := 0, updated_at := .absent }

/-- A state holding only `regexDoc`. -/
def regexState : AppState :=
  { blobs := [], videos := [regexDoc], now := 0 }

/-- Claim C6 counterexample: the query `"c.t"` returns a record even though
`"c.t"` is not a case-insensitive substring of its title, and the record has no
description and no tags — so the result does depend on special characters in
`q` (the query string is fed to the store as a regular expression, and `.`
matches the `a` of `"cat"`). -/
theorem query_regex_counterexample :
    list_videos (some "c.t") regexState = [regexDoc] ∧
    substrCI "c.t" regexDoc.title = false ∧
    regexDoc.description = none ∧
    regexDoc.tags = [] := by
  decide

/-- Claim C6 (amended): the query is interpreted as a case-insensitive regular
expression over title, description and tags; for every non-empty `q` built
without regex metacharacters the Query Service returns exactly the records for
which `q` occurs as a case-insensitive substring of the title, or of the
description, or of at least one tag — and that comparison really is plain
substring containment (second conjunct). -/
theorem query_substring_amended (q : String) (s : AppState)
    (hq : q ≠ "") (hmeta : ∀ c ∈ q.toList, c ∉ regexMeta) :
    list_videos (some q) s
      = s.videos.filter (fun d =>
          substrCI q d.title ||
          (match d.description with
           | none => false
           | some ds => substrCI q ds) ||
          d.tags.any (fun t => substrCI q t)) ∧
    (∀ t : String, substrCI q t = true ↔
      ∃ l r, t.toList.map Char.toLower = l ++ q.toList.map Char.toLower ++ r) := by
  have hdot : '.' ∉ q.toList := fun hc => hmeta '.' hc (by decide)
  have hpt : ∀ t : String, regexSearchI q t = substrCI q t :=
    fun t => regexSearchI_eq_substr q t hdot
  constructor
  · rw [list_videos, get_documents, queryFilterOf]
    rw [if_neg hq]
    refine filter_congr_fun _ _ _ (fun d => ?_)
    cases hdesc : d.description with
    | none => simp [docMatches, hdesc, hpt]
    | some ds => simp [docMatches, hdesc, hpt]
  · exact fun t => hasSub_iff _ _

/-- Claim C6 (amended) witness: the metacharacter-free query `"cat"` selects
exactly the records with a case-insensitive `"cat"` substring in title,
description or a tag. -/
theorem query_substring_amended_witness :
    list_videos (some "cat") regexState
      = regexState.videos.filter (fun d =>
          substrCI "cat" d.title ||
          (match d.description with
           | none => false
           | some ds => substrCI "cat" ds) ||
          d.tags.any (fun t => substrCI "cat" t)) :=
  (query_substring_amended "cat" regexState (by decide) (by decide)).1

end VideoBackend
